import Mathlib

/-!
Verification of the browser candidate-search agent.

This file gives a shallow embedding of the repository code in Lean 4 and
proves properties about it.  The embedding follows the TypeScript source:

* `src/browser/extractor.ts` — page-context compression (`extractPageContext`):
  element signatures, deduplication, the 150-element bound, per-category ref
  counters, text derivation with fallbacks and truncation;
* `src/browser/controller.ts` — retry bookkeeping (`checkRetryLimit`),
  `click`, `typeText`, `getPageContext` and the element-reference map;
* `src/agent/coordinator.ts` — the primary agent loop (`runTask`,
  `executeStep`, `executeTool`, `handleTaskComplete`,
  `handleRequestConfirmation`);
* `src/agent/sub-agent.ts` — the profile-scanner sub-agent loop
  (`scanProfile`, `executeSubAgentTool`, `completeScan`).

JavaScript strings are modelled as Lean `String`s over their characters;
JavaScript `||` on strings is the first-nonempty choice (`jsOrS`), and
`getAttribute` returning `null` is an `Option String` read as `""` in a
truthiness test (`optS`).  `Map` objects are modelled as association lists
with `Map.get`/`Map.set`/`Map.delete` counterparts.  Decimal rendering of
numbers (template `${n}`) is modelled by the executable `natString`.
-/

set_option maxRecDepth 2000

/-! ## JavaScript string primitives -/

/-- Whitespace test used by the JS regex `\s` and `String.trim`
(restricted to the common ASCII whitespace characters). -/
def isJsWs (c : Char) : Bool :=
  c = ' ' || c = '\t' || c = '\n' || c = '\r' || c = '\x0b' || c = '\x0c'

/-- JS `String.prototype.trim`: drop leading and trailing whitespace. -/
def jsTrimList (l : List Char) : List Char :=
  ((l.dropWhile isJsWs).reverse.dropWhile isJsWs).reverse

/-- JS `String.prototype.trim` on `String`. -/
def jsTrimS (s : String) : String := ⟨jsTrimList s.data⟩

/-- ASCII lower-casing of one character (JS `toLowerCase` restricted to ASCII). -/
def asciiLower (c : Char) : Char :=
  if 'A' ≤ c ∧ c ≤ 'Z' then Char.ofNat (c.toNat + 32) else c

/-- JS `String.prototype.toLowerCase` (ASCII fragment). -/
def jsLower (s : String) : String := ⟨s.data.map asciiLower⟩

/-- JS `s.slice(0, n)`: the first `n` characters. -/
def strTake (s : String) (n : Nat) : String := ⟨s.data.take n⟩

/-- JS `||` on two strings: the left operand unless it is empty (falsy). -/
def jsOrS (a b : String) : String := if a = "" then b else a

/-- A `getAttribute`/property read: `null` becomes the falsy `""`. -/
def optS (o : Option String) : String := o.getD ""

/-- JS `s.startsWith(p)`. -/
def strStartsWith (s p : String) : Bool := p.data.isPrefixOf s.data

/-- One pass of the JS regex replacement `replace(/\s+/g, ' ')`: each maximal
run of whitespace becomes a single space.  `prevWs` records whether the
previous character belonged to a whitespace run. -/
def collapseRunsAux (prevWs : Bool) : List Char → List Char
  | [] => []
  | c :: rest =>
    if isJsWs c then
      if prevWs then collapseRunsAux true rest else ' ' :: collapseRunsAux true rest
    else c :: collapseRunsAux false rest

/-- JS `text.trim().replace(/\s+/g, ' ')` as used by the extractor. -/
def collapseWs (s : String) : String := ⟨collapseRunsAux false (jsTrimList s.data)⟩

/-! ## Decimal rendering of naturals (template `${n}`) -/

/-- The decimal digit character for `n < 10`. -/
def digitChr (n : Nat) : Char := Char.ofNat (48 + n)

/-- Fuel-driven decimal digit list of a natural number. -/
def natDigitsAux : Nat → Nat → List Char
  | 0, _ => []
  | fuel+1, n =>
    if n < 10 then [digitChr n] else natDigitsAux fuel (n / 10) ++ [digitChr (n % 10)]

/-- Decimal rendering of a natural number, as JS string interpolation does. -/
def natString (n : Nat) : String := ⟨natDigitsAux (n + 1) n⟩

/-- Decode a digit list back to a natural number (proof device for
injectivity of `natString`). -/
def decodeDigits (s : List Char) : Nat := s.foldl (fun a c => a * 10 + (c.toNat - 48)) 0

theorem decodeDigits_append (xs : List Char) (c : Char) :
    decodeDigits (xs ++ [c]) = decodeDigits xs * 10 + (c.toNat - 48) := by
  simp [decodeDigits, List.foldl_append]

theorem decodeDigits_single (n : Nat) (h : n < 10) : decodeDigits [digitChr n] = n := by
  interval_cases n <;> rfl

theorem decode_natDigitsAux : ∀ fuel n, n < fuel → decodeDigits (natDigitsAux fuel n) = n := by
  intro fuel
  induction fuel with
  | zero => intro n h; omega
  | succ fuel ih =>
    intro n h
    by_cases h10 : n < 10
    · simp [natDigitsAux, h10, decodeDigits_single n h10]
    · have hdiv : n / 10 < fuel := by
        have h1 : n / 10 < n := Nat.div_lt_self (by omega) (by omega)
        omega
      simp only [natDigitsAux, if_neg h10]
      rw [decodeDigits_append, ih _ hdiv]
      have hmod : (digitChr (n % 10)).toNat - 48 = n % 10 := by
        have hm : n % 10 < 10 := Nat.mod_lt _ (by omega)
        interval_cases hv : n % 10 <;> simp_all [digitChr]
      rw [hmod]
      omega

theorem natString_injective : Function.Injective natString := by
  intro m n h
  have hd : natDigitsAux (m + 1) m = natDigitsAux (n + 1) n := congrArg String.data h
  have hm := decode_natDigitsAux (m + 1) m (by omega)
  rw [hd, decode_natDigitsAux (n + 1) n (by omega)] at hm
  omega

/-! ## Page-context compressor (`extractPageContext` in extractor.ts) -/

/-- The five interactive element categories produced by the extractor. -/
inductive ElemType
  | link
  | button
  | input
  | textarea
  | select
deriving DecidableEq

/-- The JS string stored in the `type` field of an extracted element. -/
def typeName : ElemType → String
  | .link => "link"
  | .button => "button"
  | .input => "input"
  | .textarea => "textarea"
  | .select => "select"

/-- The ref prefix: `el.type === 'link' ? 'link' : el.type === 'button' ? 'btn' : el.type`. -/
def prefixOf : ElemType → String
  | .link => "link"
  | .button => "btn"
  | .input => "input"
  | .textarea => "textarea"
  | .select => "select"

/-- One element as pushed into `result` by the in-page extraction script
(before ref assignment). -/
structure RawElement where
  type : ElemType
  text : String
  selector : String
  href : Option String
deriving DecidableEq

/-- The deduplication key ``` `${el.type}:${el.text}:${el.href || ''}` ```. -/
def sigKey (e : RawElement) : String :=
  typeName e.type ++ ":" ++ e.text ++ ":" ++ optS e.href

/-- One element of the produced `PageContext`. -/
structure PageElement where
  ref : String
  type : ElemType
  text : String
  selector : String
  href : Option String
deriving DecidableEq

/-- The signature triple of an output element, for stating deduplication. -/
def peSig (pe : PageElement) : String :=
  typeName pe.type ++ ":" ++ pe.text ++ ":" ++ optS pe.href

/-- The filter with the mutable `seen` set: keep an element only if its
signature key was not seen before; first occurrence wins. -/
def dedupAux (seen : List String) : List RawElement → List RawElement
  | [] => []
  | e :: rest =>
    if seen.contains (sigKey e) then dedupAux seen rest
    else e :: dedupAux (sigKey e :: seen) rest

/-- The per-category ref counters, all starting at 0. -/
structure Counters where
  link : Nat
  button : Nat
  input : Nat
  textarea : Nat
  select : Nat
deriving DecidableEq

def initCounters : Counters := ⟨0, 0, 0, 0, 0⟩

/-- Read one category counter. -/
def cget (c : Counters) : ElemType → Nat
  | .link => c.link
  | .button => c.button
  | .input => c.input
  | .textarea => c.textarea
  | .select => c.select

/-- `counters[typeKey] = (counters[typeKey] || 0) + 1`. -/
def bump (c : Counters) : ElemType → Counters
  | .link => { c with link := c.link + 1 }
  | .button => { c with button := c.button + 1 }
  | .input => { c with input := c.input + 1 }
  | .textarea => { c with textarea := c.textarea + 1 }
  | .select => { c with select := c.select + 1 }

/-- The ref string ``` `${prefix}_${counters[typeKey]}` ```. -/
def mkRef (t : ElemType) (n : Nat) : String := prefixOf t ++ "_" ++ natString n

/-- The `.map` pass assigning refs with the running per-category counters. -/
def assignRefsAux (c : Counters) : List RawElement → List PageElement
  | [] => []
  | e :: rest =>
    let c2 := bump c e.type
    { ref := mkRef e.type (cget c2 e.type), type := e.type, text := e.text,
      selector := e.selector, href := e.href } :: assignRefsAux c2 rest

/-- The element pipeline of `extractPageContext`: deduplicate by signature,
truncate to 150 elements, then assign refs. -/
def extractPageContextElements (raw : List RawElement) : List PageElement :=
  assignRefsAux initCounters ((dedupAux [] raw).take 150)

/-- The compressed page context. -/
structure PageContext where
  url : String
  title : String
  elements : List PageElement
deriving DecidableEq

/-- `extractPageContext`, given the raw in-page extraction result. -/
def compress (url title : String) (raw : List RawElement) : PageContext :=
  { url := url, title := title, elements := extractPageContextElements raw }

/-! ## Per-node text derivation (the four extraction passes) -/

/-- An abstract DOM node, carrying the facets the extraction script reads. -/
structure DomNode where
  textContent : Option String := none
  ariaLabel : Option String := none
  valueAttr : Option String := none
  placeholder : String := ""
  nameAttr : String := ""
  typeAttr : String := ""
  hrefAttr : Option String := none
  visible : Bool := true
  selector : String := ""
deriving DecidableEq

/-- `getText`: `(el.textContent || '').trim().replace(/\s+/g, ' ')` sliced to 100. -/
def getText (el : DomNode) : String := strTake (collapseWs (optS el.textContent)) 100

/-- The link pass: `a[href]` nodes.  Pushes
`{type:'link', text: text.slice(0,80), selector, href}` when the node is
visible, the fallback-chained text and href are truthy and the href is not a
`javascript:` link. -/
def linkEntry (el : DomNode) : Option RawElement :=
  if el.visible = false then none
  else if jsOrS (getText el) (jsOrS (optS el.ariaLabel) (optS el.hrefAttr)) ≠ "" ∧
      optS el.hrefAttr ≠ "" ∧ strStartsWith (optS el.hrefAttr) "javascript:" = false then
    some { type := .link,
           text := strTake (jsOrS (getText el) (jsOrS (optS el.ariaLabel) (optS el.hrefAttr))) 80,
           selector := el.selector, href := some (optS el.hrefAttr) }
  else none

/-- The button pass: text falls back `getText || aria-label || value || 'Button'`. -/
def buttonEntry (el : DomNode) : Option RawElement :=
  if el.visible = false then none
  else
    some { type := .button,
           text := strTake (jsOrS (getText el)
             (jsOrS (optS el.ariaLabel) (jsOrS (optS el.valueAttr) "Button"))) 80,
           selector := el.selector, href := none }

/-- The input/textarea pass: text falls back
`placeholder || aria-label || name || type || 'Input'`; `isTextarea` records
whether the tag name was `textarea`. -/
def inputEntry (isTextarea : Bool) (el : DomNode) : Option RawElement :=
  if el.visible = false then none
  else
    some { type := if isTextarea then .textarea else .input,
           text := strTake (jsOrS el.placeholder
             (jsOrS (optS el.ariaLabel) (jsOrS el.nameAttr (jsOrS el.typeAttr "Input")))) 80,
           selector := el.selector, href := none }

/-- The select pass: text falls back `aria-label || name || 'Select'`. -/
def selectEntry (el : DomNode) : Option RawElement :=
  if el.visible = false then none
  else
    some { type := .select,
           text := strTake (jsOrS (optS el.ariaLabel) (jsOrS el.nameAttr "Select")) 80,
           selector := el.selector, href := none }

/-! ## Lemmas about deduplication and ref assignment -/

theorem mkRef_inj {t t' : ElemType} {n n' : Nat} (h : mkRef t n = mkRef t' n') :
    t = t' ∧ n = n' := by
  by_cases ht : t = t'
  · subst ht
    refine ⟨rfl, ?_⟩
    have hd := congrArg String.data h
    simp only [mkRef, String.data_append, List.append_assoc] at hd
    have h2 := List.append_cancel_left (List.append_cancel_left hd)
    exact natString_injective (congrArg String.mk h2)
  · exfalso
    apply ht
    have hd := congrArg String.data h
    simp only [mkRef, String.data_append] at hd
    cases t <;> cases t' <;> simp_all [prefixOf]

theorem length_assignRefsAux (c : Counters) (l : List RawElement) :
    (assignRefsAux c l).length = l.length := by
  induction l generalizing c with
  | nil => rfl
  | cons e rest ih => simp [assignRefsAux, ih]

theorem contains_iff_memS {l : List String} {k : String} : l.contains k = true ↔ k ∈ l := by
  constructor <;> intro h <;> simpa using h

theorem mem_dedupAux {x : RawElement} :
    ∀ {seen l}, x ∈ dedupAux seen l →
      sigKey x ∉ seen ∧
        ∃ l₁ l₂, l = l₁ ++ x :: l₂ ∧ ∀ y ∈ l₁, sigKey y ≠ sigKey x := by
  intro seen l
  induction l generalizing seen with
  | nil => intro h; simp [dedupAux] at h
  | cons e rest ih =>
    intro h
    by_cases hs : seen.contains (sigKey e)
    · rw [dedupAux, if_pos hs] at h
      obtain ⟨hns, l₁, l₂, hsplit, hne⟩ := ih h
      refine ⟨hns, e :: l₁, l₂, by simp [hsplit], ?_⟩
      intro y hy
      rcases List.mem_cons.1 hy with rfl | hy'
      · intro hk
        exact hns (hk ▸ contains_iff_memS.1 hs)
      · exact hne y hy'
    · rw [dedupAux, if_neg hs] at h
      rcases List.mem_cons.1 h with rfl | h'
      · exact ⟨fun hm => hs (contains_iff_memS.2 hm), [], rest, rfl, by simp⟩
      · obtain ⟨hns, l₁, l₂, hsplit, hne⟩ := ih h'
        have hxe : sigKey x ≠ sigKey e := by
          intro hk
          exact hns (by simp [hk])
        refine ⟨fun hm => hns (by simp [hm]), e :: l₁, l₂, by simp [hsplit], ?_⟩
        intro y hy
        rcases List.mem_cons.1 hy with rfl | hy'
        · exact fun hk => hxe hk.symm
        · exact hne y hy'

theorem mem_map_dedupAux {k : String} :
    ∀ {seen l}, k ∈ l.map sigKey → k ∉ seen → k ∈ (dedupAux seen l).map sigKey := by
  intro seen l
  induction l generalizing seen with
  | nil => intro h; simp at h
  | cons e rest ih =>
    intro h hns
    rcases List.mem_map.1 h with ⟨y, hy, rfl⟩
    rcases List.mem_cons.1 hy with rfl | hy'
    · by_cases hs : seen.contains (sigKey y)
      · exact absurd (contains_iff_memS.1 hs) hns
      · rw [dedupAux, if_neg hs]
        simp
    · by_cases hs : seen.contains (sigKey e)
      · rw [dedupAux, if_pos hs]
        exact ih (List.mem_map_of_mem sigKey hy') hns
      · rw [dedupAux, if_neg hs]
        by_cases hk : sigKey y = sigKey e
        · simp [hk]
        · have hrec : sigKey y ∈ (dedupAux (sigKey e :: seen) rest).map sigKey :=
            ih (List.mem_map_of_mem sigKey hy') (by simp [hk, hns])
          simp [hrec]

theorem pairwise_sigKey_dedupAux :
    ∀ (seen : List String) (l : List RawElement),
      (dedupAux seen l).Pairwise (fun a b => sigKey a ≠ sigKey b) := by
  intro seen l
  induction l generalizing seen with
  | nil => exact List.Pairwise.nil
  | cons e rest ih =>
    by_cases hs : seen.contains (sigKey e)
    · rw [dedupAux, if_pos hs]; exact ih seen
    · rw [dedupAux, if_neg hs]
      refine List.Pairwise.cons ?_ (ih (sigKey e :: seen))
      intro b hb
      have := (mem_dedupAux hb).1
      intro hk
      exact this (by simp [hk])

theorem mem_assignRefsAux {pe : PageElement} :
    ∀ {c l}, pe ∈ assignRefsAux c l →
      ∃ re ∈ l, pe.type = re.type ∧ pe.text = re.text ∧
        pe.selector = re.selector ∧ pe.href = re.href := by
  intro c l
  induction l generalizing c with
  | nil => intro h; simp [assignRefsAux] at h
  | cons e rest ih =>
    intro h
    rcases List.mem_cons.1 h with rfl | h'
    · exact ⟨e, List.mem_cons_self e rest, rfl, rfl, rfl, rfl⟩
    · obtain ⟨re, hre, hfields⟩ := ih h'
      exact ⟨re, List.mem_cons_of_mem e hre, hfields⟩

theorem pairwise_assignRefsAux {R : RawElement → RawElement → Prop}
    {R' : PageElement → PageElement → Prop}
    (hcompat : ∀ (e re : RawElement) (c : Counters) (pe : PageElement),
      R e re → pe.type = re.type → pe.text = re.text → pe.selector = re.selector →
        pe.href = re.href →
        R' { ref := mkRef e.type (cget (bump c e.type) e.type), type := e.type,
             text := e.text, selector := e.selector, href := e.href } pe) :
    ∀ {l c}, l.Pairwise R → (assignRefsAux c l).Pairwise R' := by
  intro l
  induction l with
  | nil => intro c _; exact List.Pairwise.nil
  | cons e rest ih =>
    intro c hp
    rcases List.pairwise_cons.1 hp with ⟨hhead, htail⟩
    refine List.pairwise_cons.2 ⟨?_, ih htail⟩
    intro pe hpe
    obtain ⟨re, hre, h1, h2, h3, h4⟩ := mem_assignRefsAux hpe
    exact hcompat e re c pe (hhead re hre) h1 h2 h3 h4

theorem cget_bump_self (c : Counters) (t : ElemType) : cget (bump c t) t = cget c t + 1 := by
  cases t <;> rfl

theorem cget_bump_le (c : Counters) (t t' : ElemType) : cget c t' ≤ cget (bump c t) t' := by
  cases t <;> cases t' <;> simp [bump, cget]

theorem ref_spec_assignRefsAux {pe : PageElement} :
    ∀ {l c}, pe ∈ assignRefsAux c l →
      ∃ n, pe.ref = mkRef pe.type n ∧ cget c pe.type < n := by
  intro l
  induction l with
  | nil => intro c h; simp [assignRefsAux] at h
  | cons e rest ih =>
    intro c h
    rcases List.mem_cons.1 h with rfl | h'
    · exact ⟨cget c e.type + 1, by simp [cget_bump_self], by simp [cget_bump_self]⟩
    · obtain ⟨n, hn, hlt⟩ := ih h'
      exact ⟨n, hn, lt_of_le_of_lt (cget_bump_le c e.type pe.type) hlt⟩

theorem pairwise_ref_assignRefsAux :
    ∀ (l : List RawElement) (c : Counters),
      (assignRefsAux c l).Pairwise (fun a b => a.ref ≠ b.ref) := by
  intro l
  induction l with
  | nil => intro c; exact List.Pairwise.nil
  | cons e rest ih =>
    intro c
    refine List.pairwise_cons.2 ⟨?_, ih (bump c e.type)⟩
    intro pe hpe heq
    obtain ⟨n, hn, hlt⟩ := ref_spec_assignRefsAux hpe
    rw [cget_bump_self] at heq
    rw [hn] at heq
    obtain ⟨hty, hnum⟩ := mkRef_inj heq
    rw [← hty, cget_bump_self] at hlt
    omega

theorem cget_bump_ne (c : Counters) {t t' : ElemType} (h : t' ≠ t) :
    cget (bump c t') t = cget c t := by
  cases t' <;> cases t <;> simp_all [bump, cget]

theorem first_of_type_assignRefsAux {t : ElemType} :
    ∀ {l c}, (∃ pe ∈ assignRefsAux c l, pe.type = t) →
      ∃ pe ∈ assignRefsAux c l, pe.type = t ∧ pe.ref = mkRef t (cget c t + 1) := by
  intro l
  induction l with
  | nil =>
    intro c h
    obtain ⟨pe, hpe, _⟩ := h
    simp [assignRefsAux] at hpe
  | cons e rest ih =>
    intro c h
    by_cases het : e.type = t
    · subst het
      refine ⟨_, List.mem_cons_self _ _, rfl, ?_⟩
      simp [cget_bump_self]
    · obtain ⟨pe, hpe, hty⟩ := h
      rcases List.mem_cons.1 hpe with rfl | h'
      · exact absurd hty het
      · obtain ⟨pe', hpe', hty', href'⟩ := ih ⟨pe, h', hty⟩
        refine ⟨pe', List.mem_cons_of_mem _ hpe', hty', ?_⟩
        rw [href', cget_bump_ne c het]

theorem nodup_map_sigKey_dedupAux (seen : List String) (l : List RawElement) :
    ((dedupAux seen l).map sigKey).Nodup :=
  (pairwise_sigKey_dedupAux seen l).map sigKey (fun _ _ h => h)

theorem mem_map_sigKey_dedupAux_iff (l : List RawElement) (k : String) :
    k ∈ (dedupAux [] l).map sigKey ↔ k ∈ l.map sigKey := by
  constructor
  · intro h
    rcases List.mem_map.1 h with ⟨x, hx, rfl⟩
    obtain ⟨_, l₁, l₂, hsplit, _⟩ := mem_dedupAux hx
    exact List.mem_map_of_mem sigKey (by simp [hsplit])
  · intro h
    exact mem_map_dedupAux h (by simp)

theorem length_dedupAux_eq (l : List RawElement) :
    (dedupAux [] l).length = (l.map sigKey).dedup.length := by
  have h1 := nodup_map_sigKey_dedupAux [] l
  have h2 : (l.map sigKey).dedup.Nodup := (l.map sigKey).nodup_dedup
  have hperm : List.Perm ((dedupAux [] l).map sigKey) ((l.map sigKey).dedup) :=
    (List.perm_ext_iff_of_nodup h1 h2).2 fun a => by
      rw [List.mem_dedup]; exact mem_map_sigKey_dedupAux_iff l a
  have := hperm.length_eq
  simpa using this

/-! ## Claim theorems for the compressor -/

/-- Claim C2 (confirmed): for every page, the element list produced by the
page-context compressor has length at most 150; no two elements of one
snapshot share the same (type, text, href) signature; when several raw
candidates share a signature key the first occurrence in document order is
the entry kept; and deduplication happens before the 150-element truncation
(the output length equals the number of distinct signature keys in the whole
raw list, capped at 150, not the count among the first 150 raw elements). -/
theorem C2_bounded_dedup_snapshot (raw : List RawElement) :
    (extractPageContextElements raw).length ≤ 150 ∧
    (extractPageContextElements raw).Pairwise
      (fun a b => ¬(a.type = b.type ∧ a.text = b.text ∧ a.href = b.href)) ∧
    (∀ pe ∈ extractPageContextElements raw,
      ∃ l₁ re l₂, raw = l₁ ++ re :: l₂ ∧
        pe.type = re.type ∧ pe.text = re.text ∧ pe.selector = re.selector ∧
        pe.href = re.href ∧ ∀ y ∈ l₁, sigKey y ≠ sigKey re) ∧
    (extractPageContextElements raw).length = min 150 ((raw.map sigKey).dedup.length) := by
  have hlen : (extractPageContextElements raw).length
      = min 150 ((raw.map sigKey).dedup.length) := by
    rw [extractPageContextElements, length_assignRefsAux, List.length_take,
      length_dedupAux_eq]
  refine ⟨?_, ?_, ?_, hlen⟩
  · rw [hlen]; exact min_le_left _ _
  · refine pairwise_assignRefsAux ?_
      (((pairwise_sigKey_dedupAux [] raw).sublist (List.take_sublist 150 _)))
    intro e re c pe hR h1 h2 h3 h4
    intro ⟨ht, hx, hh⟩
    apply hR
    simp only [sigKey]
    rw [h1, h2, h4] at *
    rw [← ht, ← hx, ← hh]
  · intro pe hpe
    obtain ⟨re, hre, h1, h2, h3, h4⟩ := mem_assignRefsAux hpe
    have hre' : re ∈ dedupAux [] raw := List.mem_of_mem_take hre
    obtain ⟨_, l₁, l₂, hsplit, hfirst⟩ := mem_dedupAux hre'
    exact ⟨l₁, re, l₂, hsplit, h1, h2, h3, h4, hfirst⟩

/-- Claim C9 (confirmed): all ref values of one snapshot are pairwise
distinct; every ref is formed as `prefix_n` via `mkRef` with a per-category
counter starting at 1; and the five category prefixes are pairwise distinct
(so refs of different categories can never collide). -/
theorem C9_ref_uniqueness (raw : List RawElement) :
    (extractPageContextElements raw).Pairwise (fun a b => a.ref ≠ b.ref) ∧
    (∀ pe ∈ extractPageContextElements raw, ∃ n, 1 ≤ n ∧ pe.ref = mkRef pe.type n) ∧
    (∀ t t' : ElemType, prefixOf t = prefixOf t' → t = t') := by
  refine ⟨pairwise_ref_assignRefsAux _ initCounters, ?_, by intro t t'; cases t <;> cases t' <;> decide⟩
  intro pe hpe
  obtain ⟨n, hn, hlt⟩ := ref_spec_assignRefsAux hpe
  have h0 : cget initCounters pe.type = 0 := by cases pe.type <;> rfl
  rw [h0] at hlt
  exact ⟨n, hlt, hn⟩

/-- A small concrete page for the compressor witnesses: two links with the
same (type, text, href) signature and one button. -/
def demoRaw : List RawElement :=
  [ { type := .link, text := "Hello", selector := "#a", href := some "/x" },
    { type := .link, text := "Hello", selector := "#a2", href := some "/x" },
    { type := .button, text := "Go", selector := "#b", href := none } ]

/-- Witness for C2 at a concrete raw list: the bound, the deduplication and
the dedup-before-truncation count hold on `demoRaw`, whose duplicate link is
collapsed to the first occurrence. -/
theorem C2_bounded_dedup_snapshot_witness :
    (extractPageContextElements demoRaw).length ≤ 150 ∧
    (extractPageContextElements demoRaw).length
      = min 150 ((demoRaw.map sigKey).dedup.length) ∧
    (extractPageContextElements demoRaw).length = 2 :=
  ⟨(C2_bounded_dedup_snapshot demoRaw).1,
   (C2_bounded_dedup_snapshot demoRaw).2.2.2, by decide⟩

/-- Witness for C9 at a concrete raw list: the refs on `demoRaw` are
`link_1` and `btn_1`, pairwise distinct. -/
theorem C9_ref_uniqueness_witness :
    (extractPageContextElements demoRaw).Pairwise (fun a b => a.ref ≠ b.ref) ∧
    (extractPageContextElements demoRaw).map (fun pe => pe.ref) = ["link_1", "btn_1"] :=
  ⟨(C9_ref_uniqueness demoRaw).1, by decide⟩

/-! ## Claim C4: text derivation and truncation -/

theorem strTake_length (s : String) (n : Nat) : (strTake s n).length = min n s.length := by
  rw [show (strTake s n).length = (s.data.take n).length from rfl,
    show s.length = s.data.length from rfl]
  exact List.length_take n s.data

theorem linkEntry_text {el : DomNode} {re : RawElement} (h : linkEntry el = some re) :
    re.text = strTake (jsOrS (getText el) (jsOrS (optS el.ariaLabel) (optS el.hrefAttr))) 80 := by
  unfold linkEntry at h
  by_cases hv : el.visible = false
  · rw [if_pos hv] at h
    exact Option.noConfusion h
  · rw [if_neg hv] at h
    by_cases hc : jsOrS (getText el) (jsOrS (optS el.ariaLabel) (optS el.hrefAttr)) ≠ "" ∧
        optS el.hrefAttr ≠ "" ∧ strStartsWith (optS el.hrefAttr) "javascript:" = false
    · rw [if_pos hc] at h
      rw [← Option.some.inj h]
    · rw [if_neg hc] at h
      exact Option.noConfusion h

theorem buttonEntry_text {el : DomNode} {re : RawElement} (h : buttonEntry el = some re) :
    re.text = strTake (jsOrS (getText el)
      (jsOrS (optS el.ariaLabel) (jsOrS (optS el.valueAttr) "Button"))) 80 := by
  unfold buttonEntry at h
  by_cases hv : el.visible = false
  · rw [if_pos hv] at h
    exact Option.noConfusion h
  · rw [if_neg hv] at h
    rw [← Option.some.inj h]

theorem inputEntry_text {isTextarea : Bool} {el : DomNode} {re : RawElement}
    (h : inputEntry isTextarea el = some re) :
    re.text = strTake (jsOrS el.placeholder
      (jsOrS (optS el.ariaLabel) (jsOrS el.nameAttr (jsOrS el.typeAttr "Input")))) 80 := by
  unfold inputEntry at h
  by_cases hv : el.visible = false
  · rw [if_pos hv] at h
    exact Option.noConfusion h
  · rw [if_neg hv] at h
    rw [← Option.some.inj h]

theorem selectEntry_text {el : DomNode} {re : RawElement} (h : selectEntry el = some re) :
    re.text = strTake (jsOrS (optS el.ariaLabel) (jsOrS el.nameAttr "Select")) 80 := by
  unfold selectEntry at h
  by_cases hv : el.visible = false
  · rw [if_pos hv] at h
    exact Option.noConfusion h
  · rw [if_neg hv] at h
    rw [← Option.some.inj h]

/-- Claim C4 (corrected): the per-type fallback chains hold exactly as the
claim states, and `getText` caps the collapsed visible text at 100
characters — but each snapshot entry then truncates the derived text again
to 80 characters (`text.slice(0, 80)` in all four extraction passes), so an
element whose collapsed visible text is exactly 100 characters long keeps
only the first 80 of them, not all 100. -/
theorem C4_text_fallbacks_and_cap :
    (∀ el re, linkEntry el = some re →
        re.text = strTake (jsOrS (getText el) (jsOrS (optS el.ariaLabel) (optS el.hrefAttr))) 80) ∧
    (∀ el re, buttonEntry el = some re →
        re.text = strTake (jsOrS (getText el)
          (jsOrS (optS el.ariaLabel) (jsOrS (optS el.valueAttr) "Button"))) 80) ∧
    (∀ isTextarea el re, inputEntry isTextarea el = some re →
        re.text = strTake (jsOrS el.placeholder
          (jsOrS (optS el.ariaLabel) (jsOrS el.nameAttr (jsOrS el.typeAttr "Input")))) 80) ∧
    (∀ el re, selectEntry el = some re →
        re.text = strTake (jsOrS (optS el.ariaLabel) (jsOrS el.nameAttr "Select")) 80) ∧
    (∀ el, (getText el).length ≤ 100) ∧
    (∀ el re, linkEntry el = some re → re.text.length ≤ 80) ∧
    (∀ el re, linkEntry el = some re → (collapseWs (optS el.textContent)).length = 100 →
        re.text.length = 80) := by
  refine ⟨fun el re h => linkEntry_text h, fun el re h => buttonEntry_text h,
    fun isTA el re h => inputEntry_text h, fun el re h => selectEntry_text h, ?_, ?_, ?_⟩
  · intro el
    rw [getText, strTake_length]
    exact min_le_left _ _
  · intro el re h
    rw [linkEntry_text h, strTake_length]
    exact min_le_left _ _
  · intro el re h h100
    have hgt : (getText el).length = 100 := by
      rw [getText, strTake_length, h100]
      omega
    have hne : getText el ≠ "" := by
      intro he
      rw [he] at hgt
      simp [String.length] at hgt
    rw [linkEntry_text h, strTake_length, jsOrS, if_neg hne, hgt]
    omega

/-- A visible anchor whose visible text collapses to exactly 100 characters. -/
def nd100 : DomNode :=
  { textContent := some ⟨List.replicate 100 'a'⟩, hrefAttr := some "/x", selector := "#a" }

/-- Counterexample to claim C4 as stated: for a node whose collapsed visible
text is exactly 100 characters long, the snapshot entry does not keep all
100 characters — its stored text has length 80 and differs from the
collapsed text. -/
theorem C4_counterexample :
    (collapseWs (optS nd100.textContent)).length = 100 ∧
    (linkEntry nd100).map (fun re => re.text.length) = some 80 ∧
    (linkEntry nd100).map (fun re => re.text) ≠ some (collapseWs (optS nd100.textContent)) := by
  refine ⟨by decide, by decide, by decide⟩

/-- Witness for the C4 theorem at the concrete node `nd100`: the entry
exists, its text is the 80-character truncation of the fallback-chained
text, and its length is 80. -/
theorem C4_text_fallbacks_and_cap_witness :
    (linkEntry nd100 =
      some { type := .link, text := strTake (getText nd100) 80, selector := "#a",
             href := some "/x" }) ∧
    (∀ re, linkEntry nd100 = some re → re.text.length = 80) :=
  ⟨by decide, fun re h =>
    C4_text_fallbacks_and_cap.2.2.2.2.2.2 nd100 re h (by decide)⟩

/-! ## Browser controller (`controller.ts`): maps, retries, click, typeText -/

/-- JS `Map.get` on an association list. -/
def alGet {β : Type} : List (String × β) → String → Option β
  | [], _ => none
  | p :: rest, k => if p.1 = k then some p.2 else alGet rest k

/-- JS `Map.set`: replace the entry in place or append a new one. -/
def alSet {β : Type} : List (String × β) → String → β → List (String × β)
  | [], k, v => [(k, v)]
  | p :: rest, k, v => if p.1 = k then (k, v) :: rest else p :: alSet rest k v

/-- JS `Map.delete`. -/
def alDelete {β : Type} : List (String × β) → String → List (String × β)
  | [], _ => []
  | p :: rest, k => if p.1 = k then alDelete rest k else p :: alDelete rest k

theorem alGet_set_self {β : Type} (m : List (String × β)) (k : String) (v : β) :
    alGet (alSet m k v) k = some v := by
  induction m with
  | nil => simp [alSet, alGet]
  | cons p rest ih =>
    by_cases hp : p.1 = k
    · simp [alSet, hp, alGet]
    · simp [alSet, hp, alGet, ih]

theorem alGet_set_ne {β : Type} (m : List (String × β)) {k r : String} (v : β) (h : k ≠ r) :
    alGet (alSet m k v) r = alGet m r := by
  induction m with
  | nil => simp [alSet, alGet, h]
  | cons p rest ih =>
    by_cases hp : p.1 = k
    · simp [alSet, hp, alGet, h]
    · simp [alSet, hp, alGet, ih]

theorem alGet_delete_self {β : Type} (m : List (String × β)) (k : String) :
    alGet (alDelete m k) k = none := by
  induction m with
  | nil => simp [alDelete, alGet]
  | cons p rest ih =>
    by_cases hp : p.1 = k
    · simp [alDelete, hp, ih]
    · simp [alDelete, hp, alGet, ih]

/-- The retry-count map `action key → attempt counter`. -/
abbrev RetryState := List (String × Nat)

/-- `checkRetryLimit`: read the counter (0 when absent); at or above the
ceiling 3 delete it and refuse; otherwise store the incremented counter and
allow the retry. -/
def checkRetryLimit (rc : RetryState) (key : String) : Bool × RetryState :=
  if (alGet rc key).getD 0 ≥ 3 then (false, alDelete rc key)
  else (true, alSet rc key ((alGet rc key).getD 0 + 1))

/-- `clearRetry`. -/
def clearRetry (rc : RetryState) (key : String) : RetryState := alDelete rc key

/-- The uniform result envelope `{success, data?, error?}`. -/
structure ToolResult where
  success : Bool
  data : Option String := none
  error : Option String := none
deriving DecidableEq

/-- Physical browser actions performed by an operation (for frame claims). -/
inductive BAction
  | clickAct (selector : String)
  | forceClickAct (selector : String)
  | keyboardTypeAct (selector : String) (text : String)
  | fillAct (selector : String) (text : String)
  | pressSeqAct (selector : String) (text : String)
  | pressEnterAct
deriving DecidableEq

/-- The stale-reference error message of `click`. -/
def clickStaleMsg (ref : String) : String :=
  "Element \"" ++ ref ++ "\" not found. Call get_page_context() first to refresh elements."

/-- The stale-reference error message of `typeText`. -/
def typeStaleMsg (ref : String) : String :=
  "Element \"" ++ ref ++ "\" not found. Call get_page_context() first."

/-- The environment of one `click` call: whether the primary click and the
forced-click fallback would succeed, and the text of the thrown error. -/
structure ClickEnv where
  primarySucceeds : Bool
  fallbackSucceeds : Bool
  errText : String
deriving DecidableEq

/-- `BrowserController.click(ref)`: resolve the ref in the element map
(fail fast when absent, touching nothing); primary click, and on failure
consult `checkRetryLimit` for key `click:ref`; under the ceiling try the
forced click, else return the terminal failure.  Returns the envelope, the
new retry state and the physical actions performed. -/
def click (map : List (String × String)) (rc : RetryState) (ref : String) (env : ClickEnv) :
    ToolResult × RetryState × List BAction :=
  match alGet map ref with
  | none => ({ success := false, error := some (clickStaleMsg ref) }, rc, [])
  | some selector =>
    if env.primarySucceeds then
      ({ success := true, data := some ("clicked " ++ ref) },
       clearRetry rc ("click:" ++ ref), [.clickAct selector])
    else
      let cr := checkRetryLimit rc ("click:" ++ ref)
      if cr.1 then
        if env.fallbackSucceeds then
          ({ success := true, data := some ("clicked " ++ ref ++ " forced") },
           clearRetry cr.2 ("click:" ++ ref), [.clickAct selector, .forceClickAct selector])
        else
          ({ success := false,
             error := some ("Click failed: " ++ env.errText ++ ". Try scrolling or refreshing page context.") },
           cr.2, [.clickAct selector, .forceClickAct selector])
      else
        ({ success := false, error := some ("Click failed after retries: " ++ env.errText) },
         cr.2, [.clickAct selector])

/-- The environment of one `typeText` call: whether the keyboard-typing
primary, the `fill` fallback and the `pressSequentially` fallback succeed. -/
structure TypeEnv where
  primarySucceeds : Bool
  fillSucceeds : Bool
  seqSucceeds : Bool
  errText : String
deriving DecidableEq

/-- `BrowserController.typeText(ref, text, pressEnter)`: stale-ref fast
failure, then keyboard typing with two ordered fallbacks under the retry
ceiling for key `type:ref`. -/
def typeText (map : List (String × String)) (rc : RetryState) (ref text : String)
    (pressEnter : Bool) (env : TypeEnv) : ToolResult × RetryState × List BAction :=
  match alGet map ref with
  | none => ({ success := false, error := some (typeStaleMsg ref) }, rc, [])
  | some selector =>
    if env.primarySucceeds then
      ({ success := true, data := some ("typed " ++ text) },
       clearRetry rc ("type:" ++ ref),
       [.keyboardTypeAct selector text] ++ if pressEnter then [.pressEnterAct] else [])
    else
      let cr := checkRetryLimit rc ("type:" ++ ref)
      if cr.1 then
        if env.fillSucceeds then
          ({ success := true, data := some ("typed " ++ text ++ " fill") },
           clearRetry cr.2 ("type:" ++ ref),
           [.keyboardTypeAct selector text, .fillAct selector text] ++
             if pressEnter then [.pressEnterAct] else [])
        else if env.seqSucceeds then
          ({ success := true, data := some ("typed " ++ text ++ " pressSequentially") },
           clearRetry cr.2 ("type:" ++ ref),
           [.keyboardTypeAct selector text, .fillAct selector text, .pressSeqAct selector text] ++
             if pressEnter then [.pressEnterAct] else [])
        else
          ({ success := false,
             error := some ("All type methods failed. Last error: " ++ env.errText) },
           cr.2,
           [.keyboardTypeAct selector text, .fillAct selector text, .pressSeqAct selector text])
      else
        ({ success := false, error := some ("Type failed after retries: " ++ env.errText) },
         cr.2, [.keyboardTypeAct selector text])

/-- The controller's mutable browser-facing state. -/
structure BrowserState where
  elementMap : List (String × String)
  retryCount : RetryState
  actions : List BAction
deriving DecidableEq

def emptyBrowser : BrowserState := ⟨[], [], []⟩

/-- The map rebuilt from a fresh snapshot:
`this.elementMap.clear(); for (const el of context.elements) set(el.ref, el.selector)`. -/
def snapshotMap (elems : List PageElement) : List (String × String) :=
  elems.foldl (fun m e => alSet m e.ref e.selector) []

/-- `getPageContext` success path: the element map is cleared and rebuilt
from the new snapshot only. -/
def applySnapshot (st : BrowserState) (ctx : PageContext) : BrowserState :=
  { st with elementMap := snapshotMap ctx.elements }

/-- `BrowserController.getPageContext()`: on a successful extraction replace
the map and return the context; on an extraction error return the failure
envelope and leave all state unchanged. -/
def getPageContextR (st : BrowserState) (outcome : Except String PageContext) :
    ToolResult × BrowserState :=
  match outcome with
  | .ok ctx =>
    ({ success := true, data := some ("context " ++ ctx.url) }, applySnapshot st ctx)
  | .error e =>
    ({ success := false, error := some ("Failed to extract page context: " ++ e) }, st)

/-! ## Claim C1: retry ceiling of click -/

/-- The result of the `(n+1)`-st consecutive `click` call for the same ref,
threading the retry state. -/
def clickSeq (map : List (String × String)) (ref : String) (env : ClickEnv)
    (rc : RetryState) : Nat → ToolResult × RetryState × List BAction
  | 0 => click map rc ref env
  | n+1 => click map (clickSeq map ref env rc n).2.1 ref env

theorem click_fail_step (map : List (String × String)) (rc : RetryState) (ref sel : String)
    (env : ClickEnv) (hsel : alGet map ref = some sel) (hp : env.primarySucceeds = false)
    (hf : env.fallbackSucceeds = false) (n : Nat)
    (hn : (alGet rc ("click:" ++ ref)).getD 0 = n) (hlt : n < 3) :
    click map rc ref env =
      ({ success := false,
         error := some ("Click failed: " ++ env.errText ++ ". Try scrolling or refreshing page context.") },
       alSet rc ("click:" ++ ref) (n + 1), [.clickAct sel, .forceClickAct sel]) := by
  have hc : checkRetryLimit rc ("click:" ++ ref) = (true, alSet rc ("click:" ++ ref) (n + 1)) := by
    rw [checkRetryLimit, hn]
    rw [if_neg (by omega)]
  simp [click, hsel, hp, hf, hc]

theorem click_exhaust_step (map : List (String × String)) (rc : RetryState) (ref sel : String)
    (env : ClickEnv) (hsel : alGet map ref = some sel) (hp : env.primarySucceeds = false)
    (hn : (alGet rc ("click:" ++ ref)).getD 0 = 3) :
    click map rc ref env =
      ({ success := false, error := some ("Click failed after retries: " ++ env.errText) },
       alDelete rc ("click:" ++ ref), [.clickAct sel]) := by
  have hc : checkRetryLimit rc ("click:" ++ ref) = (false, alDelete rc ("click:" ++ ref)) := by
    rw [checkRetryLimit, hn]
    rw [if_pos (by omega)]
  simp [click, hsel, hp, hc]

/-- Claim C1 (corrected): starting with no counter for the action key
`click:ref`, each of the first three calls on which the primary and the
forced-click fallback both fail returns the recoverable
`Click failed: …` envelope and leaves the counter at 1, 2, 3 respectively —
not the terminal failure the claim states for the third call.  The terminal
`Click failed after retries` envelope is returned on the 4th consecutive
failing call, which deletes the counter, so the 5th call starts a fresh
cycle.  Any successful call deletes the counter for its key. -/
theorem C1_retry_ceiling (map : List (String × String)) (rc : RetryState) (ref sel : String)
    (env : ClickEnv) (hsel : alGet map ref = some sel)
    (h0 : alGet rc ("click:" ++ ref) = none)
    (hp : env.primarySucceeds = false) (hf : env.fallbackSucceeds = false) :
    (∀ i, i < 3 →
      (clickSeq map ref env rc i).1.success = false ∧
      (clickSeq map ref env rc i).1.error =
        some ("Click failed: " ++ env.errText ++ ". Try scrolling or refreshing page context.") ∧
      alGet (clickSeq map ref env rc i).2.1 ("click:" ++ ref) = some (i + 1)) ∧
    ((clickSeq map ref env rc 3).1.success = false ∧
     (clickSeq map ref env rc 3).1.error = some ("Click failed after retries: " ++ env.errText) ∧
     alGet (clickSeq map ref env rc 3).2.1 ("click:" ++ ref) = none) ∧
    (∀ (rc' : RetryState) (env' : ClickEnv), env'.primarySucceeds = true →
      (click map rc' ref env').1.success = true ∧
      alGet (click map rc' ref env').2.1 ("click:" ++ ref) = none) := by
  have hs0 : clickSeq map ref env rc 0 =
      ({ success := false,
         error := some ("Click failed: " ++ env.errText ++ ". Try scrolling or refreshing page context.") },
       alSet rc ("click:" ++ ref) 1, [.clickAct sel, .forceClickAct sel]) := by
    rw [clickSeq, click_fail_step map rc ref sel env hsel hp hf 0 (by rw [h0]; rfl) (by omega)]
  have hg1 : alGet (clickSeq map ref env rc 0).2.1 ("click:" ++ ref) = some 1 := by
    rw [hs0]; exact alGet_set_self rc _ 1
  have hs1 : clickSeq map ref env rc 1 =
      ({ success := false,
         error := some ("Click failed: " ++ env.errText ++ ". Try scrolling or refreshing page context.") },
       alSet (clickSeq map ref env rc 0).2.1 ("click:" ++ ref) 2,
       [.clickAct sel, .forceClickAct sel]) := by
    rw [show clickSeq map ref env rc 1 = click map (clickSeq map ref env rc 0).2.1 ref env from rfl,
      click_fail_step map _ ref sel env hsel hp hf 1 (by rw [hg1]; rfl) (by omega)]
  have hg2 : alGet (clickSeq map ref env rc 1).2.1 ("click:" ++ ref) = some 2 := by
    rw [hs1]; exact alGet_set_self _ _ 2
  have hs2 : clickSeq map ref env rc 2 =
      ({ success := false,
         error := some ("Click failed: " ++ env.errText ++ ". Try scrolling or refreshing page context.") },
       alSet (clickSeq map ref env rc 1).2.1 ("click:" ++ ref) 3,
       [.clickAct sel, .forceClickAct sel]) := by
    rw [show clickSeq map ref env rc 2 = click map (clickSeq map ref env rc 1).2.1 ref env from rfl,
      click_fail_step map _ ref sel env hsel hp hf 2 (by rw [hg2]; rfl) (by omega)]
  have hg3 : alGet (clickSeq map ref env rc 2).2.1 ("click:" ++ ref) = some 3 := by
    rw [hs2]; exact alGet_set_self _ _ 3
  have hs3 : clickSeq map ref env rc 3 =
      ({ success := false, error := some ("Click failed after retries: " ++ env.errText) },
       alDelete (clickSeq map ref env rc 2).2.1 ("click:" ++ ref), [.clickAct sel]) := by
    rw [show clickSeq map ref env rc 3 = click map (clickSeq map ref env rc 2).2.1 ref env from rfl,
      click_exhaust_step map _ ref sel env hsel hp (by rw [hg3]; rfl)]
  refine ⟨?_, ?_, ?_⟩
  · intro i hi
    interval_cases i
    · exact ⟨by rw [hs0], by rw [hs0], hg1⟩
    · exact ⟨by rw [hs1], by rw [hs1], hg2⟩
    · exact ⟨by rw [hs2], by rw [hs2], hg3⟩
  · exact ⟨by rw [hs3], by rw [hs3], by rw [hs3]; exact alGet_delete_self _ _⟩
  · intro rc' env' hp'
    rw [click, hsel, hp']
    exact ⟨rfl, alGet_delete_self _ _⟩

/-- The concrete setup of the C1 counterexample: one mapped button ref and a
click whose primary and fallback strategies always fail. -/
def c1Map : List (String × String) := [("btn_1", "#sel")]

def c1Env : ClickEnv := ⟨false, false, "e"⟩

/-- Counterexample to claim C1 as stated: on the 3rd consecutive failing
call the envelope is still the recoverable `Click failed: …` one — not the
terminal `failed after retries` envelope — and the retry counter is still
present (at 3), not deleted. -/
theorem C1_counterexample :
    (clickSeq c1Map "btn_1" c1Env [] 2).1.success = false ∧
    (clickSeq c1Map "btn_1" c1Env [] 2).1.error =
      some "Click failed: e. Try scrolling or refreshing page context." ∧
    (clickSeq c1Map "btn_1" c1Env [] 2).1.error ≠ some "Click failed after retries: e" ∧
    alGet (clickSeq c1Map "btn_1" c1Env [] 2).2.1 "click:btn_1" = some 3 := by
  refine ⟨by decide, by decide, by decide, by decide⟩

/-- Witness for the amended C1 theorem at the concrete setup: the 4th
consecutive failing call is the terminal one and deletes the counter. -/
theorem C1_retry_ceiling_witness :
    alGet c1Map "btn_1" = some "#sel" ∧
    (clickSeq c1Map "btn_1" c1Env [] 3).1.error = some "Click failed after retries: e" ∧
    alGet (clickSeq c1Map "btn_1" c1Env [] 3).2.1 "click:btn_1" = none :=
  ⟨by decide,
   (C1_retry_ceiling c1Map [] "btn_1" "#sel" c1Env (by decide) (by decide) rfl rfl).2.1.2.1,
   (C1_retry_ceiling c1Map [] "btn_1" "#sel" c1Env (by decide) (by decide) rfl rfl).2.1.2.2⟩

/-! ## Claims C5 and C10: stale references and map replacement -/

theorem string_ne_of_head_ne {s t : String} (h : s.data.head? ≠ t.data.head?) : s ≠ t :=
  fun he => h (by rw [he])

theorem clickStaleMsg_head (ref : String) : (clickStaleMsg ref).data.head? = some 'E' := rfl

theorem clickFailed_head (x : String) :
    ("Click failed: " ++ x ++ ". Try scrolling or refreshing page context.").data.head?
      = some 'C' := rfl

theorem clickExhaust_head (x : String) :
    ("Click failed after retries: " ++ x).data.head? = some 'C' := rfl

theorem clickFailed_ne_stale (x ref : String) :
    ("Click failed: " ++ x ++ ". Try scrolling or refreshing page context.") ≠ clickStaleMsg ref :=
  string_ne_of_head_ne (by rw [clickFailed_head, clickStaleMsg_head]; decide)

theorem clickExhaust_ne_stale (x ref : String) :
    ("Click failed after retries: " ++ x) ≠ clickStaleMsg ref :=
  string_ne_of_head_ne (by rw [clickExhaust_head, clickStaleMsg_head]; decide)

theorem alGet_foldl_set (elems : List PageElement) :
    ∀ (m : List (String × String)) (r : String), (∀ e ∈ elems, e.ref ≠ r) →
      alGet (elems.foldl (fun m e => alSet m e.ref e.selector) m) r = alGet m r := by
  induction elems with
  | nil => intro m r _; rfl
  | cons e rest ih =>
    intro m r hne
    rw [List.foldl_cons, ih _ r (fun e' he' => hne e' (List.mem_cons_of_mem e he')),
      alGet_set_ne m _ (hne e (List.mem_cons_self e rest))]

theorem string_eq_of_data_eq {s t : String} (h : s.data = t.data) : s = t :=
  congrArg String.mk h

/-- Claim C5 (confirmed): for a ref absent from the current element map,
`click` and `typeText` return the `success:false` envelope whose message
names `get_page_context()`, leave the retry state unchanged, perform no
browser action and (being total functions into the envelope type) never
throw; and a successful `get_page_context` replaces the element map
entirely — the new map is determined by the new snapshot alone and every key
not minted by the new snapshot resolves to nothing, whatever the old map
held. -/
theorem C5_stale_reference_handling :
    (∀ map rc ref env, alGet map ref = none →
      click map rc ref env =
        ({ success := false, error := some (clickStaleMsg ref) }, rc, [])) ∧
    (∀ map rc ref text pressEnter env, alGet map ref = none →
      typeText map rc ref text pressEnter env =
        ({ success := false, error := some (typeStaleMsg ref) }, rc, [])) ∧
    (∀ ref, ∃ pre post, clickStaleMsg ref = pre ++ ("get_page_context()" ++ post)) ∧
    (∀ ref, ∃ pre post, typeStaleMsg ref = pre ++ ("get_page_context()" ++ post)) ∧
    (∀ st st' ctx, (applySnapshot st ctx).elementMap = (applySnapshot st' ctx).elementMap) ∧
    (∀ st ctx r, (∀ e ∈ ctx.elements, e.ref ≠ r) →
      alGet (applySnapshot st ctx).elementMap r = none) ∧
    (∀ st ctx, getPageContextR st (.ok ctx) =
      ({ success := true, data := some ("context " ++ ctx.url) }, applySnapshot st ctx)) := by
  refine ⟨?_, ?_, ?_, ?_, fun st st' ctx => rfl, ?_, fun st ctx => rfl⟩
  · intro map rc ref env h
    rw [click, h]
  · intro map rc ref text pressEnter env h
    rw [typeText, h]
  · intro ref
    refine ⟨"Element \"" ++ ref ++ "\" not found. Call ", " first to refresh elements.", ?_⟩
    apply string_eq_of_data_eq
    simp [clickStaleMsg, String.data_append, List.append_assoc]
  · intro ref
    refine ⟨"Element \"" ++ ref ++ "\" not found. Call ", " first.", ?_⟩
    apply string_eq_of_data_eq
    simp [typeStaleMsg, String.data_append, List.append_assoc]
  · intro st ctx r hne
    rw [applySnapshot]
    exact alGet_foldl_set ctx.elements [] r hne

/-- Witness for C5 at concrete inputs: clicking and typing on an unmapped
ref return the stale-reference envelopes untouched state, and a snapshot
built over a stale map drops the old binding. -/
theorem C5_stale_reference_handling_witness :
    click [] [("click:old", 2)] "link_9" ⟨true, true, "e"⟩ =
      ({ success := false, error := some (clickStaleMsg "link_9") }, [("click:old", 2)], []) ∧
    typeText [] [] "input_4" "hi" true ⟨true, true, true, "e"⟩ =
      ({ success := false, error := some (typeStaleMsg "input_4") }, [], []) ∧
    alGet (applySnapshot (applySnapshot emptyBrowser
      ⟨"u", "t", [⟨"link_1", .link, "x", "#s", none⟩]⟩) ⟨"u2", "t2", []⟩).elementMap "link_1" = none :=
  ⟨C5_stale_reference_handling.1 [] [("click:old", 2)] "link_9" ⟨true, true, "e"⟩ (by decide),
   C5_stale_reference_handling.2.1 [] [] "input_4" "hi" true ⟨true, true, true, "e"⟩ (by decide),
   C5_stale_reference_handling.2.2.2.2.2.1 _ ⟨"u2", "t2", []⟩ "link_1" (by decide)⟩

/-- Two successive snapshots binding the same ref string `link_1` to
different selectors (C10 scenario). -/
def ctxA : PageContext :=
  ⟨"https://site/a", "A", [⟨"link_1", .link, "Old", "#selA", some "/a"⟩]⟩

def ctxB : PageContext :=
  ⟨"https://site/b", "B", [⟨"link_1", .link, "New", "#selB", some "/b"⟩]⟩

def okClickEnv : ClickEnv := ⟨true, true, ""⟩

theorem cget_init (t : ElemType) : cget initCounters t = 0 := by cases t <;> rfl

/-- Claim C10 (confirmed): ref resolution is an unversioned string-keyed
lookup.  A fresh snapshot rebuilds the map independently of every earlier
snapshot; per-category counters restart at 1 on every snapshot, so the first
element of a category always receives the same ref string; a `click` on a
ref present in the current map acts on the selector the newest snapshot
bound to that string (shown also on a concrete pair of snapshots that both
mint `link_1`); and the stale-reference error is returned exactly when the
ref string is absent from the newest map. -/
theorem C10_unversioned_ref_resolution :
    (∀ st st' ctx, (applySnapshot st ctx).elementMap = (applySnapshot st' ctx).elementMap) ∧
    (∀ raw t, (∃ pe ∈ extractPageContextElements raw, pe.type = t) →
      ∃ pe ∈ extractPageContextElements raw, pe.type = t ∧ pe.ref = mkRef t 1) ∧
    (∀ map rc ref sel env, alGet map ref = some sel → env.primarySucceeds = true →
      click map rc ref env =
        ({ success := true, data := some ("clicked " ++ ref) },
         clearRetry rc ("click:" ++ ref), [.clickAct sel])) ∧
    (∀ map rc ref env,
      ((click map rc ref env).1.error = some (clickStaleMsg ref)) ↔ alGet map ref = none) ∧
    (click (applySnapshot (applySnapshot emptyBrowser ctxA) ctxB).elementMap []
        "link_1" okClickEnv).2.2 = [.clickAct "#selB"] := by
  refine ⟨fun st st' ctx => rfl, ?_, ?_, ?_, by decide⟩
  · intro raw t h
    have hfirst : ∃ pe ∈ assignRefsAux initCounters ((dedupAux [] raw).take 150),
        pe.type = t ∧ pe.ref = mkRef t (cget initCounters t + 1) :=
      first_of_type_assignRefsAux h
    rwa [cget_init] at hfirst
  · intro map rc ref sel env hsel hp
    rw [click, hsel, hp]
    rfl
  · intro map rc ref env
    constructor
    · intro h
      cases hm : alGet map ref with
      | none => rfl
      | some sel =>
        exfalso
        simp only [click, hm] at h
        by_cases hp : env.primarySucceeds
        · rw [if_pos hp] at h
          exact Option.noConfusion h
        · rw [if_neg hp] at h
          cases hcr : (checkRetryLimit rc ("click:" ++ ref)).1
          · rw [hcr] at h
            simp only [Bool.false_eq_true, if_false] at h
            exact clickExhaust_ne_stale env.errText ref (Option.some.inj h)
          · rw [hcr] at h
            simp only [if_true] at h
            by_cases hfb : env.fallbackSucceeds
            · rw [if_pos hfb] at h
              exact Option.noConfusion h
            · rw [if_neg hfb] at h
              exact clickFailed_ne_stale env.errText ref (Option.some.inj h)
    · intro h
      rw [click, h]

/-- Witness for C10: on the concrete snapshot pair, `link_1` minted by the
first snapshot resolves against the second snapshot's binding and the click
acts on the new selector; the stale error appears only for an absent ref. -/
theorem C10_unversioned_ref_resolution_witness :
    click (applySnapshot (applySnapshot emptyBrowser ctxA) ctxB).elementMap []
        "link_1" okClickEnv =
      ({ success := true, data := some ("clicked link_1") }, [], [.clickAct "#selB"]) ∧
    ((click (applySnapshot emptyBrowser ctxB).elementMap [] "link_2" okClickEnv).1.error =
      some (clickStaleMsg "link_2")) ∧
    (∃ pe ∈ extractPageContextElements demoRaw, pe.type = .button ∧ pe.ref = mkRef .button 1) :=
  ⟨C10_unversioned_ref_resolution.2.2.1
      (applySnapshot (applySnapshot emptyBrowser ctxA) ctxB).elementMap []
      "link_1" "#selB" okClickEnv (by decide) rfl,
   (C10_unversioned_ref_resolution.2.2.2.1
      (applySnapshot emptyBrowser ctxB).elementMap [] "link_2" okClickEnv).2 (by decide),
   C10_unversioned_ref_resolution.2.1 demoRaw .button (by decide)⟩

/-! ## Primary agent loop (`coordinator.ts`) -/

/-- The candidate record (required fields of the `task_complete` schema). -/
structure Candidate where
  username : String
  profileUrl : String
  matchReason : String
deriving DecidableEq

/-- The terminal output of one task. -/
structure TaskResult where
  success : Bool
  candidates : List Candidate
  summary : String
deriving DecidableEq

/-- A conversation entry; `γ` is the tool-call type of the loop at hand. -/
inductive Msg (γ : Type) where
  | sys (content : String)
  | user (content : String)
  | assistant (content : Option String) (toolCalls : List γ)
  | tool (tool_call_id : String) (content : String)

/-- The result of `handleRequestConfirmation`. -/
structure ConfirmResult where
  success : Bool
  confirmed : Bool
  message : String
deriving DecidableEq

/-- `const confirmed = response.trim().toLowerCase() === 'yes'` and the two
result envelopes of `handleRequestConfirmation`. -/
def confirmationReply (response : String) : ConfirmResult :=
  if jsLower (jsTrimS response) = "yes" then
    { success := true, confirmed := true,
      message := "User approved. You may proceed with the action." }
  else
    { success := false, confirmed := false,
      message := "User rejected. Do not proceed. Consider alternative approaches." }

def jsonBool (b : Bool) : String := if b then "true" else "false"

/-- `JSON.stringify` of a confirmation result. -/
def jsonOfConfirm (r : ConfirmResult) : String :=
  "\x7b\"success\":" ++ jsonBool r.success ++ ",\"confirmed\":" ++ jsonBool r.confirmed ++
    ",\"message\":\"" ++ r.message ++ "\"\x7d"

/-- `JSON.stringify({ success: true, message: 'Task marked as complete' })`. -/
def taskCompleteContent : String :=
  "\x7b\"success\":true,\"message\":\"Task marked as complete\"\x7d"

/-- One model-proposed tool invocation of the primary loop.  `task_complete`
and `request_confirmation` are modelled exactly (the confirmation carries
the human reply read from the terminal); every other tool is abstracted as a
browser-state transformer plus its serialized result envelope. -/
inductive ToolFn where
  | task_complete (candidates : List Candidate) (summary : String)
  | request_confirmation (action reason impact reply : String)
  | other (name : String) (effect : BrowserState → BrowserState) (result : String)

structure ToolCall where
  id : String
  fn : ToolFn

def ToolFn.isTerminal : ToolFn → Bool
  | .task_complete _ _ => true
  | _ => false

/-- The serialized tool-result content pushed for one invocation. -/
def contentOf : ToolFn → String
  | .task_complete _ _ => taskCompleteContent
  | .request_confirmation _ _ _ reply => jsonOfConfirm (confirmationReply reply)
  | .other _ _ result => result

/-- The coordinator's task-scoped state. -/
structure CoordState where
  iteration : Nat
  taskComplete : Bool
  taskResult : Option TaskResult
  messages : List (Msg ToolCall)
  browser : BrowserState

/-- `executeTool`: dispatch one invocation and push exactly one tool-role
entry correlated by the invocation id.  `handleTaskComplete` sets the
completion flag and the success result; `handleRequestConfirmation` only
computes the boolean from the reply; other tools act on the browser. -/
def execTool (st : CoordState) (tc : ToolCall) : CoordState :=
  match tc.fn with
  | .task_complete cs summary =>
    { st with taskComplete := true,
              taskResult := some { success := true, candidates := cs, summary := summary },
              messages := st.messages ++ [.tool tc.id taskCompleteContent] }
  | .request_confirmation _ _ _ reply =>
    { st with messages := st.messages ++ [.tool tc.id (jsonOfConfirm (confirmationReply reply))] }
  | .other _ effect result =>
    { st with browser := effect st.browser,
              messages := st.messages ++ [.tool tc.id result] }

/-- What one iteration observes from the model: a proposal (content and/or
tool calls) or a raised error (`executeStep` threw). -/
inductive StepAction where
  | respond (content : Option String) (calls : List ToolCall)
  | raiseErr (e : String)

/-- The user-role message injected into the conversation when an iteration
raises an error. -/
def errInjection (e : String) : String :=
  "System error occurred: " ++ e ++ ". \n\nPlease analyze why this error happened and what it tells you about the current situation. Then decide on the best alternative approach. Don\x27t just retry - think about what went wrong and how to avoid it."

/-- One pass of the `runTask` loop body: on an error, inject the diagnostic
user message and continue; otherwise push the assistant proposal and execute
its tool calls in order. -/
def executePass (st : CoordState) (act : StepAction) : CoordState :=
  match act with
  | .raiseErr e => { st with messages := st.messages ++ [.user (errInjection e)] }
  | .respond content calls =>
    calls.foldl execTool { st with messages := st.messages ++ [.assistant content calls] }

def MAX_ITERATIONS : Nat := 500

/-- The `while (!this.taskComplete && iteration < MAX_ITERATIONS)` loop,
driven by a model oracle indexed by the number of completed passes.  The
fuel argument only bounds recursion; `MAX_ITERATIONS` fuel always suffices
because every pass increments the iteration counter. -/
def runFrom (oracle : Nat → StepAction) : Nat → CoordState → CoordState
  | 0, st => st
  | fuel+1, st =>
    if st.taskComplete = false ∧ st.iteration < MAX_ITERATIONS then
      runFrom oracle fuel (executePass { st with iteration := st.iteration + 1 } (oracle st.iteration))
    else st

/-- The fresh conversation seeded at task start (the literal prompt text of
`prompts.ts` is outside the spec core and abbreviated). -/
def initCoordState (task : String) : CoordState :=
  { iteration := 0, taskComplete := false, taskResult := none,
    messages := [.sys "SYSTEM_PROMPT", .user task], browser := emptyBrowser }

/-- `AgentCoordinator.runTask`: run the loop; if no result was produced,
synthesize the failure result naming the iteration ceiling. -/
def runTask (oracle : Nat → StepAction) (task : String) : TaskResult :=
  match (runFrom oracle MAX_ITERATIONS (initCoordState task)).taskResult with
  | some r => r
  | none =>
    { success := false, candidates := [],
      summary := "Task did not complete within " ++ natString MAX_ITERATIONS ++ " iterations." }

/-! ## Profile-scanner sub-agent (`sub-agent.ts`) -/

/-- The sparse social-links record (named optional string fields), modelled
as a key-value list; `types.ts` is not part of the sources, so only the
shape used by the sub-agent loop is embedded. -/
abbrev SocialLinks := List (String × String)

abbrev AddData := List (String × String)

/-- The sub-agent's terminal output. -/
structure ProfileScanResult where
  success : Bool
  profileUrl : String
  socialLinks : SocialLinks
  tldrSummary : String
  additionalData : Option AddData := none
deriving DecidableEq

/-- One sub-agent tool invocation: `complete_scan` exactly (its arguments
may be absent, `|| {}` / `|| '…'` defaults apply), every other sub-agent
tool abstracted by its serialized result. -/
inductive SubToolFn where
  | complete_scan (socialLinks : Option SocialLinks) (tldrSummary : Option String)
      (additionalData : Option AddData)
  | subOther (name : String) (result : String)
deriving DecidableEq

structure SubCall where
  id : String
  fn : SubToolFn
deriving DecidableEq

def SubToolFn.isTerminalScan : SubToolFn → Bool
  | .complete_scan _ _ _ => true
  | _ => false

/-- `completeScan`: note the hard-coded `profileUrl: ''`. -/
def completeScanResult (links : Option SocialLinks) (tldr : Option String)
    (addl : Option AddData) : ProfileScanResult :=
  { success := true, profileUrl := "",
    socialLinks := links.getD [],
    tldrSummary := jsOrS (optS tldr) "No summary generated",
    additionalData := addl }

/-- `JSON.stringify({ success: true, message: 'Scan completed' })`. -/
def completeScanContent : String :=
  "\x7b\"success\":true,\"message\":\"Scan completed\"\x7d"

def subContentOf : SubToolFn → String
  | .complete_scan _ _ _ => completeScanContent
  | .subOther _ result => result

/-- The sub-agent's scan-scoped state. -/
structure SubState where
  iteration : Nat
  scanComplete : Bool
  scanResult : Option ProfileScanResult
  messages : List (Msg SubCall)

/-- `executeSubAgentTool` plus the per-call push of the tool-role entry. -/
def subExecTool (st : SubState) (tc : SubCall) : SubState :=
  match tc.fn with
  | .complete_scan links tldr addl =>
    { st with scanComplete := true,
              scanResult := some (completeScanResult links tldr addl),
              messages := st.messages ++ [.tool tc.id completeScanContent] }
  | .subOther _ result =>
    { st with messages := st.messages ++ [.tool tc.id result] }

/-- One sub-agent pass over a model response: with tool calls, push the
assistant entry then one tool entry per call; with plain nonempty content,
push the assistant entry only; otherwise push nothing. -/
def subPass (st : SubState) (content : Option String) (calls : List SubCall) : SubState :=
  if calls ≠ [] then
    calls.foldl subExecTool { st with messages := st.messages ++ [.assistant content calls] }
  else
    match content with
    | some c =>
      if c ≠ "" then { st with messages := st.messages ++ [.assistant (some c) []] } else st
    | none => st

inductive SubStep where
  | respond (content : Option String) (calls : List SubCall)
  | raiseErr (e : String)

def SUB_AGENT_MAX_ITERATIONS : Nat := 15

/-- The sub-agent `while (!this.scanComplete && iteration < 15)` loop.  A
raised error breaks out of the loop (after the iteration increment), unlike
the primary loop which continues. -/
def runSubFrom (oracle : Nat → SubStep) : Nat → SubState → SubState
  | 0, st => st
  | fuel+1, st =>
    if st.scanComplete = false ∧ st.iteration < SUB_AGENT_MAX_ITERATIONS then
      match oracle st.iteration with
      | .raiseErr _ => { st with iteration := st.iteration + 1 }
      | .respond content calls =>
        runSubFrom oracle fuel (subPass { st with iteration := st.iteration + 1 } content calls)
    else st

def initSubState (profileUrl username : String) : SubState :=
  { iteration := 0, scanComplete := false, scanResult := none,
    messages := [.sys "SUB_AGENT_SYSTEM_PROMPT",
      .user ("Scan this profile thoroughly: " ++ profileUrl ++ "\nUsername: " ++ username ++
        "\n\nStart by extracting profile data, then explore tabs and create a TL;DR summary.")] }

/-- The environment of one `scanProfile` call: whether the initial
navigation succeeds, the model oracle, and the outcomes of the direct
`extractSocialLinks` / `getPageTextSummary` fallback extractions. -/
structure ScanEnv where
  navSucceeds : Bool
  oracle : Nat → SubStep
  socialResult : Option SocialLinks
  textResult : Option String

/-- `ProfileScannerSubAgent.scanProfile`: navigation-failure early result,
then the loop; when the loop ends with no `scanResult`, the fallback result
is synthesized from the direct extractions, not from the model. -/
def scanProfile (env : ScanEnv) (profileUrl username : String) : ProfileScanResult :=
  if env.navSucceeds = false then
    { success := false, profileUrl := profileUrl, socialLinks := [],
      tldrSummary := "Failed to scan profile - navigation error" }
  else
    match (runSubFrom env.oracle SUB_AGENT_MAX_ITERATIONS
        (initSubState profileUrl username)).scanResult with
    | some r => r
    | none =>
      { success := true, profileUrl := profileUrl,
        socialLinks := env.socialResult.getD [],
        tldrSummary := "Profile scanned (fallback): " ++ strTake (env.textResult.getD "") 200 ++ "..." }

/-! ## Lemmas about the primary loop -/

theorem execTool_iteration (st : CoordState) (tc : ToolCall) :
    (execTool st tc).iteration = st.iteration := by
  rcases tc with ⟨idStr, fn⟩
  cases fn <;> rfl

theorem foldl_execTool_iteration (calls : List ToolCall) :
    ∀ st : CoordState, (calls.foldl execTool st).iteration = st.iteration := by
  induction calls with
  | nil => intro st; rfl
  | cons tc rest ih => intro st; rw [List.foldl_cons, ih, execTool_iteration]

theorem executePass_iteration (st : CoordState) (act : StepAction) :
    (executePass st act).iteration = st.iteration := by
  cases act with
  | raiseErr e => rfl
  | respond content calls => rw [executePass, foldl_execTool_iteration]

theorem execTool_flags (st : CoordState) (tc : ToolCall) (h : tc.fn.isTerminal = false) :
    (execTool st tc).taskComplete = st.taskComplete ∧
    (execTool st tc).taskResult = st.taskResult := by
  rcases tc with ⟨idStr, fn⟩
  cases fn with
  | task_complete cs summary => exact absurd h (by simp [ToolFn.isTerminal])
  | request_confirmation a r i reply => exact ⟨rfl, rfl⟩
  | other n eff res => exact ⟨rfl, rfl⟩

theorem foldl_execTool_flags (calls : List ToolCall) :
    ∀ st : CoordState, (∀ tc ∈ calls, tc.fn.isTerminal = false) →
      (calls.foldl execTool st).taskComplete = st.taskComplete ∧
      (calls.foldl execTool st).taskResult = st.taskResult := by
  induction calls with
  | nil => intro st _; exact ⟨rfl, rfl⟩
  | cons tc rest ih =>
    intro st h
    rw [List.foldl_cons]
    obtain ⟨h1, h2⟩ := ih (execTool st tc) (fun tc' htc' => h tc' (List.mem_cons_of_mem tc htc'))
    obtain ⟨h3, h4⟩ := execTool_flags st tc (h tc (List.mem_cons_self tc rest))
    exact ⟨h1.trans h3, h2.trans h4⟩

theorem executePass_flags (st : CoordState) (act : StepAction)
    (h : ∀ c calls, act = .respond c calls → ∀ tc ∈ calls, tc.fn.isTerminal = false) :
    (executePass st act).taskComplete = st.taskComplete ∧
    (executePass st act).taskResult = st.taskResult := by
  cases act with
  | raiseErr e => exact ⟨rfl, rfl⟩
  | respond content calls =>
    rw [executePass]
    exact foldl_execTool_flags calls _ (h content calls rfl)

theorem runFrom_exhaust (oracle : Nat → StepAction)
    (hor : ∀ n c calls, oracle n = .respond c calls → ∀ tc ∈ calls, tc.fn.isTerminal = false) :
    ∀ (fuel : Nat) (st : CoordState), st.taskComplete = false → st.taskResult = none →
      st.iteration + fuel = MAX_ITERATIONS →
      (runFrom oracle fuel st).iteration = MAX_ITERATIONS ∧
      (runFrom oracle fuel st).taskComplete = false ∧
      (runFrom oracle fuel st).taskResult = none := by
  intro fuel
  induction fuel with
  | zero =>
    intro st hc hr hit
    rw [runFrom]
    exact ⟨by omega, hc, hr⟩
  | succ fuel ih =>
    intro st hc hr hit
    rw [runFrom, if_pos ⟨hc, by omega⟩]
    have hflags := executePass_flags { st with iteration := st.iteration + 1 } (oracle st.iteration)
      (fun c calls hact => hor st.iteration c calls hact)
    have hiter := executePass_iteration { st with iteration := st.iteration + 1 } (oracle st.iteration)
    exact ih _ (hflags.1.trans hc) (hflags.2.trans hr)
      (by rw [hiter]; show st.iteration + 1 + fuel = MAX_ITERATIONS; omega)

/-- Claim C3 (confirmed): with a model that never invokes `task_complete`,
the loop performs exactly 500 passes (every pass adds one to the iteration
counter and the loop body never changes it), ends with the completion flag
unset, and `runTask` returns the synthesized failure result with an empty
candidate list instead of raising.  The completion flag and the
`success:true` result are set only by a `task_complete` invocation, and a
pass that raises an error only appends the diagnostic user message. -/
theorem C3_budget_exhaustion (oracle : Nat → StepAction)
    (hor : ∀ n c calls, oracle n = .respond c calls → ∀ tc ∈ calls, tc.fn.isTerminal = false)
    (task : String) :
    (runFrom oracle MAX_ITERATIONS (initCoordState task)).iteration = 500 ∧
    (runFrom oracle MAX_ITERATIONS (initCoordState task)).taskComplete = false ∧
    runTask oracle task =
      { success := false, candidates := [],
        summary := "Task did not complete within 500 iterations." } ∧
    (∀ st act, (executePass st act).iteration = st.iteration) ∧
    (∀ st e, executePass st (.raiseErr e) =
      { st with messages := st.messages ++ [.user (errInjection e)] }) ∧
    (∀ st tc, tc.fn.isTerminal = false →
      (execTool st tc).taskComplete = st.taskComplete ∧
      (execTool st tc).taskResult = st.taskResult) ∧
    (∀ st cs summary idStr,
      (execTool st ⟨idStr, .task_complete cs summary⟩).taskComplete = true ∧
      (execTool st ⟨idStr, .task_complete cs summary⟩).taskResult =
        some { success := true, candidates := cs, summary := summary }) := by
  obtain ⟨h1, h2, h3⟩ := runFrom_exhaust oracle hor MAX_ITERATIONS (initCoordState task)
    rfl rfl (by rfl)
  refine ⟨h1, h2, ?_, executePass_iteration, fun st e => rfl, execTool_flags, ?_⟩
  · rw [runTask, h3]
    decide
  · intro st cs summary idStr
    exact ⟨rfl, rfl⟩

/-- The model oracle that never proposes any tool call. -/
def oracleNever : Nat → StepAction := fun _ => .respond (some "still thinking") []

theorem oracleNever_no_terminal :
    ∀ n c calls, oracleNever n = .respond c calls → ∀ tc ∈ calls, tc.fn.isTerminal = false := by
  intro n c calls h tc htc
  injection h with h1 h2
  rw [← h2] at htc
  cases htc

/-- Witness for C3: the hypothesis holds for `oracleNever`, and applying the
theorem to it yields the synthesized budget-exhaustion result. -/
theorem C3_budget_exhaustion_witness :
    (∀ n c calls, oracleNever n = .respond c calls → ∀ tc ∈ calls, tc.fn.isTerminal = false) ∧
    runTask oracleNever "Find 3 Go developers" =
      { success := false, candidates := [],
        summary := "Task did not complete within 500 iterations." } :=
  ⟨oracleNever_no_terminal,
   (C3_budget_exhaustion oracleNever oracleNever_no_terminal "Find 3 Go developers").2.2.1⟩

/-! ## Claim C7: tool-result pairing and append-only conversations -/

theorem foldl_execTool_messages (calls : List ToolCall) :
    ∀ st : CoordState, (calls.foldl execTool st).messages =
      st.messages ++ calls.map (fun tc => Msg.tool tc.id (contentOf tc.fn)) := by
  induction calls with
  | nil => intro st; simp
  | cons tc rest ih =>
    intro st
    rw [List.foldl_cons, ih]
    have hone : (execTool st tc).messages = st.messages ++ [Msg.tool tc.id (contentOf tc.fn)] := by
      rcases tc with ⟨idStr, fn⟩
      cases fn <;> rfl
    rw [hone]
    simp

theorem foldl_subExecTool_messages (calls : List SubCall) :
    ∀ st : SubState, (calls.foldl subExecTool st).messages =
      st.messages ++ calls.map (fun tc => Msg.tool tc.id (subContentOf tc.fn)) := by
  induction calls with
  | nil => intro st; simp
  | cons tc rest ih =>
    intro st
    rw [List.foldl_cons, ih]
    have hone : (subExecTool st tc).messages = st.messages ++ [Msg.tool tc.id (subContentOf tc.fn)] := by
      rcases tc with ⟨idStr, fn⟩
      cases fn <;> rfl
    rw [hone]
    simp

/-- Claim C7 (confirmed): in both loops, a pass over a proposal with N tool
invocations appends the proposal entry followed by exactly N tool-role
entries, the k-th carrying the k-th invocation's id (the appended suffix is
literally the per-invocation map); and both conversations are only ever
appended to, per pass and across whole loop runs. -/
theorem C7_invocation_result_pairing :
    (∀ (st : CoordState) c calls, (executePass st (.respond c calls)).messages =
      st.messages ++ [Msg.assistant c calls] ++
        calls.map (fun tc => Msg.tool tc.id (contentOf tc.fn))) ∧
    (∀ (st : CoordState) c calls, (executePass st (.respond c calls)).messages.length =
      st.messages.length + 1 + calls.length) ∧
    (∀ (st : SubState) c calls, calls ≠ [] → (subPass st c calls).messages =
      st.messages ++ [Msg.assistant c calls] ++
        calls.map (fun tc => Msg.tool tc.id (subContentOf tc.fn))) ∧
    (∀ (st : CoordState) act, st.messages <+: (executePass st act).messages) ∧
    (∀ oracle fuel (st : CoordState), st.messages <+: (runFrom oracle fuel st).messages) ∧
    (∀ (st : SubState) c calls, st.messages <+: (subPass st c calls).messages) ∧
    (∀ oracle fuel (st : SubState), st.messages <+: (runSubFrom oracle fuel st).messages) := by
  have hpassC : ∀ (st : CoordState) c calls, (executePass st (.respond c calls)).messages =
      st.messages ++ [Msg.assistant c calls] ++
        calls.map (fun tc => Msg.tool tc.id (contentOf tc.fn)) := by
    intro st c calls
    rw [executePass, foldl_execTool_messages]
  have hpassS : ∀ (st : SubState) c calls, calls ≠ [] → (subPass st c calls).messages =
      st.messages ++ [Msg.assistant c calls] ++
        calls.map (fun tc => Msg.tool tc.id (subContentOf tc.fn)) := by
    intro st c calls hne
    rw [subPass.eq_def, if_pos hne, foldl_subExecTool_messages]
  have hprefC : ∀ (st : CoordState) act, st.messages <+: (executePass st act).messages := by
    intro st act
    cases act with
    | raiseErr e => exact ⟨[.user (errInjection e)], rfl⟩
    | respond c calls =>
      rw [hpassC]
      exact ⟨[Msg.assistant c calls] ++ calls.map (fun tc => Msg.tool tc.id (contentOf tc.fn)),
        by simp⟩
  have e2 : ∀ (st : SubState) (str : String), subPass st (some str) [] =
      if str ≠ "" then { st with messages := st.messages ++ [Msg.assistant (some str) []] }
      else st := fun st str => rfl
  have hprefS : ∀ (st : SubState) c calls, st.messages <+: (subPass st c calls).messages := by
    intro st c calls
    by_cases hne : calls = []
    · subst hne
      cases c with
      | none => exact List.prefix_rfl
      | some str =>
        rw [e2]
        by_cases hs : str ≠ ""
        · rw [if_pos hs]
          exact ⟨[Msg.assistant (some str) []], rfl⟩
        · rw [if_neg hs]
    · rw [hpassS st c calls hne]
      exact ⟨[Msg.assistant c calls] ++ calls.map (fun tc => Msg.tool tc.id (subContentOf tc.fn)),
        by simp⟩
  refine ⟨hpassC, ?_, hpassS, hprefC, ?_, hprefS, ?_⟩
  · intro st c calls
    rw [hpassC]
    simp only [List.length_append, List.length_map, List.length_singleton]
  · intro oracle fuel
    induction fuel with
    | zero => intro st; exact List.prefix_rfl
    | succ fuel ih =>
      intro st
      rw [runFrom]
      by_cases hcond : st.taskComplete = false ∧ st.iteration < MAX_ITERATIONS
      · rw [if_pos hcond]
        exact (hprefC { st with iteration := st.iteration + 1 } (oracle st.iteration)).trans (ih _)
      · rw [if_neg hcond]
  · intro oracle fuel
    induction fuel with
    | zero => intro st; exact List.prefix_rfl
    | succ fuel ih =>
      intro st
      rw [runSubFrom]
      by_cases hcond : st.scanComplete = false ∧ st.iteration < SUB_AGENT_MAX_ITERATIONS
      · rw [if_pos hcond]
        cases horacle : oracle st.iteration with
        | raiseErr e => exact List.prefix_rfl
        | respond c calls =>
          exact (hprefS { st with iteration := st.iteration + 1 } c calls).trans (ih _)
      · rw [if_neg hcond]

/-- A concrete sub-agent state and call list for the C7 witness. -/
def subDemoState : SubState := ⟨0, false, none, []⟩

def subDemoCalls : List SubCall :=
  [⟨"call_1", .subOther "scroll" "ok"⟩, ⟨"call_2", .subOther "click" "err"⟩]

/-- Witness for C7: a sub-agent pass over a 2-invocation proposal appends
the proposal and exactly two tool entries carrying `call_1` and `call_2`. -/
theorem C7_invocation_result_pairing_witness :
    subDemoCalls ≠ [] ∧
    (subPass subDemoState (some "exploring tabs") subDemoCalls).messages =
      [Msg.assistant (some "exploring tabs") subDemoCalls,
       Msg.tool "call_1" "ok", Msg.tool "call_2" "err"] :=
  ⟨by decide, by
    rw [C7_invocation_result_pairing.2.2.1 subDemoState (some "exploring tabs") subDemoCalls
      (by decide)]
    rfl⟩

/-! ## Claim C8: the confirmation gate -/

/-- Claim C8 (confirmed): `request_confirmation` yields `confirmed:true`
exactly when the reply, trimmed and lower-cased, is the word `yes`; every
other reply yields the `success:false, confirmed:false` result whose
serialized tool entry embeds `"confirmed":false`; the handler leaves the
browser state (element map, retry counters, performed actions), the
completion flag and the task result unchanged and appends only its own tool
entry; and a loop pass carrying only the rejected confirmation performs no
browser action. -/
theorem C8_confirmation_gate :
    (∀ reply, (confirmationReply reply).confirmed = true ↔ jsLower (jsTrimS reply) = "yes") ∧
    (∀ reply, jsLower (jsTrimS reply) ≠ "yes" →
      confirmationReply reply =
        { success := false, confirmed := false,
          message := "User rejected. Do not proceed. Consider alternative approaches." }) ∧
    (∀ reply, jsLower (jsTrimS reply) ≠ "yes" →
      jsonOfConfirm (confirmationReply reply) =
        "\x7b\"success\":false,\"confirmed\":false,\"message\":\"User rejected. Do not proceed. Consider alternative approaches.\"\x7d") ∧
    (∀ st idStr a r i reply,
      (execTool st ⟨idStr, .request_confirmation a r i reply⟩).browser = st.browser ∧
      (execTool st ⟨idStr, .request_confirmation a r i reply⟩).taskComplete = st.taskComplete ∧
      (execTool st ⟨idStr, .request_confirmation a r i reply⟩).taskResult = st.taskResult ∧
      (execTool st ⟨idStr, .request_confirmation a r i reply⟩).messages =
        st.messages ++ [.tool idStr (jsonOfConfirm (confirmationReply reply))]) ∧
    (∀ st c idStr a r i reply,
      (executePass st (.respond c [⟨idStr, .request_confirmation a r i reply⟩])).browser =
        st.browser) := by
  have hrej : ∀ reply, jsLower (jsTrimS reply) ≠ "yes" →
      confirmationReply reply =
        { success := false, confirmed := false,
          message := "User rejected. Do not proceed. Consider alternative approaches." } := by
    intro reply h
    rw [confirmationReply, if_neg h]
  refine ⟨?_, hrej, ?_, ?_, ?_⟩
  · intro reply
    constructor
    · intro h
      by_contra hne
      rw [hrej reply hne] at h
      exact Bool.noConfusion h
    · intro h
      rw [confirmationReply, if_pos h]
  · intro reply h
    rw [hrej reply h]
    decide
  · intro st idStr a r i reply
    exact ⟨rfl, rfl, rfl, rfl⟩
  · intro st c idStr a r i reply
    rfl

/-- Witness for C8: the reply `no` is rejected with the exact
`confirmed:false` result, and the reply ` YES ` (trimmed, lower-cased)
is the only accepted shape. -/
theorem C8_confirmation_gate_witness :
    jsLower (jsTrimS "no") ≠ "yes" ∧
    confirmationReply "no" =
      { success := false, confirmed := false,
        message := "User rejected. Do not proceed. Consider alternative approaches." } ∧
    (confirmationReply " YES ").confirmed = true ∧
    (confirmationReply "no").confirmed = false :=
  ⟨by decide, C8_confirmation_gate.2.1 "no" (by decide),
   (C8_confirmation_gate.1 " YES ").2 (by decide),
   by decide⟩

/-! ## Claim C6: the source URL of a profile scan -/

theorem subExecTool_result (st : SubState) (tc : SubCall)
    (h : tc.fn.isTerminalScan = false) :
    (subExecTool st tc).scanResult = st.scanResult ∧
    (subExecTool st tc).scanComplete = st.scanComplete := by
  rcases tc with ⟨idStr, fn⟩
  cases fn with
  | complete_scan links tldr addl => exact absurd h (by simp [SubToolFn.isTerminalScan])
  | subOther n res => exact ⟨rfl, rfl⟩

theorem foldl_subExecTool_result (calls : List SubCall) :
    ∀ st : SubState, (∀ tc ∈ calls, tc.fn.isTerminalScan = false) →
      (calls.foldl subExecTool st).scanResult = st.scanResult ∧
      (calls.foldl subExecTool st).scanComplete = st.scanComplete := by
  induction calls with
  | nil => intro st _; exact ⟨rfl, rfl⟩
  | cons tc rest ih =>
    intro st h
    rw [List.foldl_cons]
    obtain ⟨h1, h2⟩ := ih (subExecTool st tc) (fun tc' htc' => h tc' (List.mem_cons_of_mem tc htc'))
    obtain ⟨h3, h4⟩ := subExecTool_result st tc (h tc (List.mem_cons_self tc rest))
    exact ⟨h1.trans h3, h2.trans h4⟩

theorem subPass_result (st : SubState) (c : Option String) (calls : List SubCall)
    (h : ∀ tc ∈ calls, tc.fn.isTerminalScan = false) :
    (subPass st c calls).scanResult = st.scanResult ∧
    (subPass st c calls).scanComplete = st.scanComplete := by
  by_cases hne : calls = []
  · subst hne
    cases c with
    | none => exact ⟨rfl, rfl⟩
    | some str =>
      rw [show subPass st (some str) [] =
        if str ≠ "" then { st with messages := st.messages ++ [Msg.assistant (some str) []] }
        else st from rfl]
      by_cases hs : str ≠ ""
      · rw [if_pos hs]; exact ⟨rfl, rfl⟩
      · rw [if_neg hs]; exact ⟨rfl, rfl⟩
  · rw [subPass.eq_def, if_pos hne]
    exact foldl_subExecTool_result calls _ h

theorem runSubFrom_no_terminal (oracle : Nat → SubStep)
    (hor : ∀ n c calls, oracle n = .respond c calls → ∀ tc ∈ calls, tc.fn.isTerminalScan = false) :
    ∀ (fuel : Nat) (st : SubState), st.scanResult = none →
      (runSubFrom oracle fuel st).scanResult = none := by
  intro fuel
  induction fuel with
  | zero => intro st h; exact h
  | succ fuel ih =>
    intro st h
    rw [runSubFrom]
    by_cases hcond : st.scanComplete = false ∧ st.iteration < SUB_AGENT_MAX_ITERATIONS
    · rw [if_pos hcond]
      cases horacle : oracle st.iteration with
      | raiseErr e => exact h
      | respond c calls =>
        exact ih _ (((subPass_result { st with iteration := st.iteration + 1 } c calls
          (hor st.iteration c calls horacle)).1).trans h)
    · rw [if_neg hcond]
      exact h

/-- Claim C6 (corrected): the `ProfileScanResult` carries the scanned
profile's source URL in the navigation-failure result and in the
budget-exhausted fallback result (synthesized from the direct extractions),
i.e. on every run in which `complete_scan` is never invoked — but the
result built by the `complete_scan` handler itself always stores the empty
string as `profileUrl`, so the explicit-terminal path does not carry the
source URL. -/
theorem C6_scan_profile_url (env : ScanEnv) (profileUrl username : String)
    (hor : ∀ n c calls, env.oracle n = .respond c calls →
      ∀ tc ∈ calls, tc.fn.isTerminalScan = false) :
    (scanProfile env profileUrl username).profileUrl = profileUrl ∧
    (∀ links tldr addl, (completeScanResult links tldr addl).profileUrl = "") := by
  refine ⟨?_, fun links tldr addl => rfl⟩
  cases hnav : env.navSucceeds with
  | false => rw [scanProfile, if_pos hnav]
  | true =>
    rw [scanProfile, if_neg (by rw [hnav]; exact fun h => Bool.noConfusion h)]
    rw [runSubFrom_no_terminal env.oracle hor SUB_AGENT_MAX_ITERATIONS
      (initSubState profileUrl username) rfl]

/-- The concrete C6 counterexample oracle: the model calls `complete_scan`
on its first iteration. -/
def c6Oracle : Nat → SubStep := fun _ =>
  .respond none [⟨"call_1",
    .complete_scan (some [("github", "https://github.com/alice")]) (some "Alice summary.") none⟩]

def c6Env : ScanEnv := ⟨true, c6Oracle, none, none⟩

/-- Counterexample to claim C6 as stated: when the sub-agent terminates via
`complete_scan`, the returned result's `profileUrl` is the empty string, not
the source URL that was scanned. -/
theorem C6_counterexample :
    (scanProfile c6Env "https://github.com/alice" "alice").success = true ∧
    (scanProfile c6Env "https://github.com/alice" "alice").tldrSummary = "Alice summary." ∧
    (scanProfile c6Env "https://github.com/alice" "alice").profileUrl = "" ∧
    (scanProfile c6Env "https://github.com/alice" "alice").profileUrl ≠
      "https://github.com/alice" := by
  refine ⟨rfl, rfl, rfl, by decide⟩

/-- The C6 witness oracle: the model never calls `complete_scan`, so the
budget-exhausted fallback result is synthesized. -/
def c6FallbackOracle : Nat → SubStep := fun _ => .respond (some "looking around") []

theorem c6FallbackOracle_no_terminal :
    ∀ n c calls, c6FallbackOracle n = .respond c calls →
      ∀ tc ∈ calls, tc.fn.isTerminalScan = false := by
  intro n c calls h tc htc
  injection h with h1 h2
  rw [← h2] at htc
  cases htc

def c6FallbackEnv : ScanEnv :=
  ⟨true, c6FallbackOracle, some [("github", "https://github.com/alice")], some "Alice page text"⟩

/-- Witness for the amended C6 theorem: a run without `complete_scan` keeps
the source URL in the fallback result. -/
theorem C6_scan_profile_url_witness :
    (scanProfile c6FallbackEnv "https://github.com/alice" "alice").profileUrl =
      "https://github.com/alice" ∧
    (completeScanResult (some [("github", "g")]) (some "s") none).profileUrl = "" :=
  ⟨(C6_scan_profile_url c6FallbackEnv "https://github.com/alice" "alice"
      c6FallbackOracle_no_terminal).1,
   (C6_scan_profile_url c6FallbackEnv "https://github.com/alice" "alice"
      c6FallbackOracle_no_terminal).2 (some [("github", "g")]) (some "s") none⟩
